import Mathlib

/- Formal model of the WebContainer host bridge implemented in src/main.js.

   The source file holds three revisions of the same page script.  The model
   below embeds revision 1 (the primary message listener, origin guard,
   handshake handlers, process handlers and health-check listener) and the
   revision-2 message listener, which is the only revision that carries
   correlation identifiers on its responses.  Stateful code is embedded as
   explicit state passing over a small connection-state record; the effects
   of the asynchronous handlers are embedded as traces of primitive
   operations listed in source order.  Timestamps on outbound envelopes and
   the visual status display are not modelled. -/

namespace Webhost

/-- ASCII lower-casing of one character, mirroring what toLowerCase does on
the ASCII message kinds used by the bridge. -/
def asciiLowerChar (c : Char) : Char :=
  if ('A' ≤ c ∧ c ≤ 'Z') then Char.ofNat (c.toNat + 32) else c

/-- ASCII lower-casing of a string; the bridge only lower-cases ASCII
message kinds. -/
def asciiLower (s : String) : String := ⟨s.data.map asciiLowerChar⟩

/-- Boolean test that the first list is an initial segment of the second. -/
def isPrefCh : List Char → List Char → Bool
  | [], _ => true
  | _ :: _, [] => false
  | a :: as, b :: bs => a == b && isPrefCh as bs

/-- Boolean substring search over character lists. -/
def subAt : List Char → List Char → Bool
  | pat, [] => pat.isEmpty
  | pat, c :: rest => isPrefCh pat (c :: rest) || subAt pat rest

/-- JavaScript includes: does s contain pat as a contiguous substring. -/
def hasSub (s pat : String) : Bool := subAt pat.data s.data

/-- Allow-list of domain fragments from revision 1 of isAllowedOrigin
(src/main.js lines 73-81). -/
def allowedDomains : List String :=
  ["localhost", "lovable", "vercel", "stackblitz", "webcontainer.io",
   "supabase.co", "supabase.com"]

/-- Origin guard of revision 1 (src/main.js lines 65-85).  The page's own
origin is a module-scope constant in the source and is passed explicitly
here. -/
def isAllowedOrigin (selfOrigin origin : String) : Bool :=
  if origin == selfOrigin then false
  else if origin == "null" || origin == "file://" then true
  else allowedDomains.any fun d => hasSub origin d

/-- Allow-list of the revision-2 redefinition of isAllowedOrigin
(src/main.js second revision). -/
def allowedPatterns2 : List String :=
  ["localhost", "lovable.dev",
   "https://7f818ebb-e5cc-4179-8f6c-e01617c5204a.lovableproject.com",
   "lovableproject.com", "vercel.app", "stackblitz.io", "stackblitz.com",
   "webcontainer.io"]

/-- Origin guard of revision 2; same shape as revision 1 with a different
pattern list. -/
def isAllowedOrigin2 (selfOrigin origin : String) : Bool :=
  if origin == selfOrigin then false
  else if origin == "null" || origin == "file://" then true
  else allowedPatterns2.any fun p => hasSub origin p

/-- Connection state of the page: the connected flag and whether the
handshake heartbeat interval is still armed. -/
structure ConnSt where
  connected : Bool
  timerActive : Bool
deriving DecidableEq

/-- Inbound cross-document event payload: either a bare string or an object
with its optional type and id fields and a flag recording whether its
payload field holds an Object (the payload's structure does not otherwise
influence routing, but its objecthood decides whether an inherited
isPrototypeOf invocation throws). -/
inductive JsData
  | str (s : String)
  | obj (type : Option String) (id : Option String) (payloadObj : Bool)
deriving DecidableEq

/-- The value of data.type when destructured in JavaScript: a bare string
has no type property. -/
def jsTypeOf : JsData → Option String
  | JsData.str _ => none
  | JsData.obj t _ _ => t

/-- The value of data.id when destructured in JavaScript. -/
def jsIdOf : JsData → Option String
  | JsData.str _ => none
  | JsData.obj _ i _ => i

/-- Whether the destructured payload field is an Object. -/
def jsPayloadObj : JsData → Bool
  | JsData.str _ => false
  | JsData.obj _ _ p => p

/-- JavaScript truthiness of event.data: the empty string is the only falsy
inbound payload in the model. -/
def jsTruthy : JsData → Bool
  | JsData.str s => s != ""
  | JsData.obj _ _ _ => true

/-- The connected-marking test of the revision-1 listener: messageType is
data.type when that is truthy, otherwise data itself, and is compared with
the two liveness kinds. -/
def mtIsPing : JsData → Bool
  | JsData.str s => s == "PING" || s == "ping"
  | JsData.obj none _ _ => false
  | JsData.obj (some t) _ _ => t != "" && (t == "PING" || t == "ping")

/-- Identities of the entries of the revision-1 messageHandlers table. -/
inductive HandlerId
  | pingUpper
  | pingLower
  | mountFiles
  | runCommand
  | writeFile
  | readFile
deriving DecidableEq

/-- Keys of the revision-1 messageHandlers table, in source order
(src/main.js lines 221-404). -/
def messageHandlerKeys : List (String × HandlerId) :=
  [("PING", HandlerId.pingUpper), ("ping", HandlerId.pingLower),
   ("MOUNT_FILES", HandlerId.mountFiles), ("RUN_COMMAND", HandlerId.runCommand),
   ("WRITE_FILE", HandlerId.writeFile), ("READ_FILE", HandlerId.readFile)]

/-- Names of the members every object literal inherits from the standard
Object prototype; a property read with one of these keys returns a truthy
inherited value even though the handler table declares no such entry. -/
def protoNames : List String :=
  ["constructor", "hasOwnProperty", "isPrototypeOf", "propertyIsEnumerable",
   "toLocaleString", "toString", "valueOf", "__proto__", "__defineGetter__",
   "__defineSetter__", "__lookupGetter__", "__lookupSetter__"]

/-- A truthy value obtained by reading a property of the handler table: one
of the six declared handlers, or a member inherited through the prototype
chain. -/
inductive JsMember
  | handler (h : HandlerId)
  | protoFn (name : String)
deriving DecidableEq

/-- One JavaScript property read on the handler table: an own key wins,
else an inherited Object-prototype member, else undefined. -/
def jsGet (k : String) : Option JsMember :=
  match messageHandlerKeys.lookup k with
  | some h => some (JsMember.handler h)
  | none => if protoNames.contains k then some (JsMember.protoFn k) else none

/-- The listener's handler selection: messageHandlers at type, else
messageHandlers at the lower-cased type (src/main.js line 449); both reads
go through the prototype chain. -/
def lookupHandler : Option String → Option JsMember
  | none => none
  | some t =>
      match jsGet t with
      | some m => some m
      | none => jsGet (asciiLower t)

/-- Whether calling the inherited Object-prototype member named name as a
bare strict-mode function on the message payload throws: the Object
constructor returns an object, toString with an undefined receiver yields
a tag string, isPrototypeOf touches its receiver only when the argument is
an Object, and every other member (including the non-callable proto
accessor value) throws a TypeError. -/
def protoThrows (name : String) (payloadObj : Bool) : Bool :=
  if name == "constructor" then false
  else if name == "toString" then false
  else if name == "isPrototypeOf" then payloadObj
  else true

/-- Observable actions of the revision-1 listeners: a broadcast send of an
outbound message kind, a send directed at a specific origin, the
invocation of a non-handshake handler, or the invocation of an inherited
prototype member reached through the handler lookup. -/
inductive Act
  | send (type : String)
  | sendTo (type : String) (origin : String)
  | invoke (h : HandlerId)
  | invokeProto (name : String)
deriving DecidableEq

/-- Result of one listener run: the connection state afterwards and the
actions performed. -/
structure ListenRes where
  st : ConnSt
  acts : List Act
deriving DecidableEq

/-- The connected-marking block of the revision-1 listener (src/main.js
lines 430-437): on a liveness kind while not connected, set connected and
cancel the heartbeat interval. -/
def markPing (st : ConnSt) (d : JsData) : ConnSt :=
  if !st.connected && (jsTruthy d && mtIsPing d) then ⟨true, false⟩ else st

/-- The revision-1 message listener (src/main.js lines 407-462): ignore
self, ignore the stackblitz init message, apply the origin guard, mark the
connection, answer bare-string pings, then dispatch whatever the property
lookup returned.  The PING and ping handlers set connected, cancel the
interval and send one liveness response; a truthy inherited prototype
member is invoked like a handler, and when that invocation throws the
catch at lines 453-460 sends one outbound ERROR (HANDLER_ERROR). -/
def routeMain (selfOrigin : String) (st : ConnSt) (origin : String) (d : JsData) : ListenRes :=
  if origin == selfOrigin then ⟨st, []⟩
  else if hasSub origin "stackblitz" && (jsTypeOf d == some "init") then ⟨st, []⟩
  else if !(isAllowedOrigin selfOrigin origin) then ⟨st, []⟩
  else
    match d with
    | JsData.str s =>
        if asciiLower s == "ping" then ⟨⟨true, false⟩, [Act.send "pong"]⟩
        else ⟨markPing st d, []⟩
    | JsData.obj ty _ p =>
        match lookupHandler ty with
        | some (JsMember.handler HandlerId.pingUpper) => ⟨⟨true, false⟩, [Act.send "PONG"]⟩
        | some (JsMember.handler HandlerId.pingLower) => ⟨⟨true, false⟩, [Act.send "pong"]⟩
        | some (JsMember.handler HandlerId.mountFiles) =>
            ⟨markPing st d, [Act.invoke HandlerId.mountFiles]⟩
        | some (JsMember.handler HandlerId.runCommand) =>
            ⟨markPing st d, [Act.invoke HandlerId.runCommand]⟩
        | some (JsMember.handler HandlerId.writeFile) =>
            ⟨markPing st d, [Act.invoke HandlerId.writeFile]⟩
        | some (JsMember.handler HandlerId.readFile) =>
            ⟨markPing st d, [Act.invoke HandlerId.readFile]⟩
        | some (JsMember.protoFn nm) =>
            ⟨markPing st d,
             Act.invokeProto nm :: (if protoThrows nm p then [Act.send "ERROR"] else [])⟩
        | none => ⟨markPing st d, []⟩

/-- The out-of-band health-check listener (src/main.js lines 464-476): it
only excludes the page's own origin, then answers a bare health-check
string directly to the sender's origin with a healthy status object. -/
def routeHealth (selfOrigin origin : String) (d : JsData) : List Act :=
  if origin == selfOrigin then []
  else if d = JsData.str "health-check" then [Act.sendTo "healthy" origin]
  else []

/-- One firing of the heartbeat interval (src/main.js lines 116-133): while
not connected it broadcasts the redundant ready encodings; once connected
the callback body is skipped. -/
def heartbeatTick (st : ConnSt) : ConnSt × List Act :=
  if st.timerActive then
    if st.connected then (st, [])
    else (st, [Act.send "ready", Act.send "READY", Act.send "ready",
               Act.send "WEBCONTAINER_READY"])
  else (st, [])

/-- clearInterval on the heartbeat handle: disarms the timer and nothing
else; clearing an already cleared interval is harmless in the browser. -/
def clearTimer (st : ConnSt) : ConnSt := ⟨st.connected, false⟩

/-- Events that can reach the page after initialization: a heartbeat
firing, a message on the main listener, or a message on the health-check
listener. -/
inductive BridgeEv
  | tick
  | msg (origin : String) (d : JsData)
  | health (origin : String) (d : JsData)

/-- One event step of the page. -/
def stepEv (selfOrigin : String) (st : ConnSt) (e : BridgeEv) : ConnSt × List Act :=
  match e with
  | BridgeEv.tick => heartbeatTick st
  | BridgeEv.msg o d => ((routeMain selfOrigin st o d).st, (routeMain selfOrigin st o d).acts)
  | BridgeEv.health o d => (st, routeHealth selfOrigin o d)

/-- Running a sequence of events, collecting all actions in order. -/
def runEvs (selfOrigin : String) (st : ConnSt) : List BridgeEv → ConnSt × List Act
  | [] => (st, [])
  | e :: es =>
      ((runEvs selfOrigin (stepEv selfOrigin st e).1 es).1,
        (stepEv selfOrigin st e).2 ++ (runEvs selfOrigin (stepEv selfOrigin st e).1 es).2)

/-- Handlers dispatched by the revision-2 listener's switch statement. -/
inductive H2
  | mountFiles
  | writeFile
  | readFile
deriving DecidableEq

/-- Observable actions of the revision-2 listener: a send directed at the
sender's origin carrying an optional correlation id, or a handler
invocation with the request's id retained for the later response. -/
inductive Act2
  | sendTo (type : String) (origin : String) (id : Option String)
  | invoke (h : H2) (id : Option String)
deriving DecidableEq

/-- Result of one revision-2 listener run. -/
structure Listen2Res where
  st : ConnSt
  acts : List Act2
deriving DecidableEq

/-- JavaScript truthiness of the destructured id field. -/
def idTruthy : Option String → Bool
  | none => false
  | some s => s != ""

/-- The revision-2 message listener (src/main.js second revision, lines
728-801): ignore self, apply the revision-2 origin guard, answer object
PING and ping probes with one PONG directed at the sender's origin that
echoes a truthy id, and otherwise dispatch the three recognized kinds; the
default switch branch returns silently. -/
def route2 (selfOrigin : String) (st : ConnSt) (origin : String) (d : JsData) : Listen2Res :=
  if origin == selfOrigin then ⟨st, []⟩
  else if !(isAllowedOrigin2 selfOrigin origin) then ⟨st, []⟩
  else
    if jsTypeOf d == some "PING" || jsTypeOf d == some "ping" then
      ⟨⟨true, false⟩,
       [Act2.sendTo "PONG" origin (if idTruthy (jsIdOf d) then jsIdOf d else none)]⟩
    else
      match jsTypeOf d with
      | some "MOUNT_FILES" => ⟨st, [Act2.invoke H2.mountFiles (jsIdOf d)]⟩
      | some "WRITE_FILE" => ⟨st, [Act2.invoke H2.writeFile (jsIdOf d)]⟩
      | some "READ_FILE" => ⟨st, [Act2.invoke H2.readFile (jsIdOf d)]⟩
      | _ => ⟨st, []⟩

/-- Process slots of revision 1: the ad-hoc command process, the dev server
process and the install process. -/
inductive Slot
  | current
  | devServer
  | install
deriving DecidableEq, BEq

/-- Primitive operations performed by the process-handling handlers, in
source order: killing or clearing a slot's occupant, spawning into a slot,
attaching a long-lived output pipe, awaiting a process exit, the mount
capability call, and an outbound send whose payload optionally carries a
numeric exit code. -/
inductive POp
  | killSlot (s : Slot)
  | clearSlot (s : Slot)
  | spawn (s : Slot)
  | pipe (s : Slot)
  | awaitExit (s : Slot)
  | mount
  | emit (type : String) (code : Option Int)
deriving DecidableEq, BEq

/-- Trace of the revision-1 RUN_COMMAND handler (src/main.js lines
327-372) for a run whose spawn succeeds or fails; chunks are the streamed
output chunks of the spawned process. -/
def runCommandTrace (occupied spawnOk : Bool) (chunks : List String) (exitCode : Int) : List POp :=
  (if occupied then [POp.killSlot Slot.current] else []) ++
  (if spawnOk then
      [POp.spawn Slot.current] ++
      chunks.map (fun _ => POp.emit "COMMAND_OUTPUT" none) ++
      [POp.awaitExit Slot.current, POp.clearSlot Slot.current,
       POp.emit "COMMAND_EXIT" (some exitCode)]
    else [POp.emit "ERROR" none])

/-- Trace of killAllProcesses (src/main.js lines 88-105): kill each
occupied slot, then null every slot reference. -/
def killAllTrace (c d i : Bool) : List POp :=
  (if c then [POp.killSlot Slot.current] else []) ++
  (if d then [POp.killSlot Slot.devServer] else []) ++
  (if i then [POp.killSlot Slot.install] else []) ++
  [POp.clearSlot Slot.current, POp.clearSlot Slot.devServer, POp.clearSlot Slot.install]

/-- Trace of the MOUNT_FILES handler after the quiesce step, for a session
whose mount capability call succeeds: mount, broadcast the mounted status,
then either run the install and serve steps or report ready without a
manifest.  A non-zero install exit throws, and the handler's catch turns
the fault into an ERROR send carrying that exit code in its message
(src/main.js lines 236-325). -/
def mountBody (hasPkg : Bool) (chunks : List String) (installExit : Int) : List POp :=
  [POp.mount, POp.emit "STATUS_UPDATE" none] ++
  (if hasPkg then
      [POp.spawn Slot.install] ++
      chunks.map (fun _ => POp.emit "COMMAND_OUTPUT" none) ++
      [POp.awaitExit Slot.install, POp.clearSlot Slot.install] ++
      (if installExit != 0 then [POp.emit "ERROR" (some installExit)]
       else [POp.emit "STATUS_UPDATE" none, POp.spawn Slot.devServer, POp.pipe Slot.devServer])
    else [POp.emit "STATUS_UPDATE" none])

/-- Full trace of the revision-1 MOUNT_FILES handler: quiesce all slots,
then the mount body. -/
def mountFilesTrace (c d i : Bool) (hasPkg : Bool) (chunks : List String) (installExit : Int) : List POp :=
  killAllTrace c d i ++ mountBody hasPkg chunks installExit

/-- Recognizer for the distinct exit event of the protocol. -/
def isExitEv (op : POp) : Bool :=
  match op with
  | POp.emit t _ => t == "COMMAND_EXIT"
  | _ => false

/-- Recognizer for outbound error events. -/
def isErrEv (op : POp) : Bool :=
  match op with
  | POp.emit t _ => t == "ERROR"
  | _ => false

/-- Recognizer for outbound events that carry a numeric exit code. -/
def withCode (op : POp) : Bool :=
  match op with
  | POp.emit _ (some _) => true
  | _ => false

/-- Decidable statement of the claimed supervisor discipline on a trace:
between killing a slot's occupant and the next spawn into the same slot,
the occupant's exit must be awaited. -/
def killAwaitedBeforeSpawnB (t : List POp) : Bool :=
  (List.range t.length).all fun j =>
    (List.range j).all fun i =>
      match t.get? i, t.get? j with
      | some (POp.killSlot s1), some (POp.spawn s2) =>
          if s1 == s2 then
            (List.range j).any fun k =>
              decide (i < k) && (t.get? k == some (POp.awaitExit s1))
          else true
      | _, _ => true

/-- Declared run scripts of a manifest, as read from the package
descriptor. -/
structure Scripts where
  dev : Option String
  start : Option String
  serve : Option String
deriving DecidableEq

/-- The empty scripts object used when the manifest declares none. -/
def emptyScripts : Scripts := ⟨none, none, none⟩

/-- JavaScript truthiness of a script entry: present and non-empty. -/
def truthyStr : Option String → Bool
  | none => false
  | some s => s != ""

/-- Outcome of reading and parsing the manifest file: the read threw (file
absent or unreadable), the parse threw, or a parsed package object whose
scripts field may be absent.  The try-catch blocks of the source are
embedded as these explicit constructors. -/
inductive ManifestRead
  | missing
  | invalidJson
  | parsed (scripts : Option Scripts)
deriving DecidableEq

/-- hasPackageJson (src/main.js lines 192-199): true iff the manifest read
succeeds; the catch turns any failure into false. -/
def hasPackageJson : ManifestRead → Bool
  | ManifestRead.missing => false
  | ManifestRead.invalidJson => true
  | ManifestRead.parsed _ => true

/-- getDevCommand (src/main.js lines 202-218): prefer a truthy dev script,
else start, else serve, else the default dev; the catch maps read and
parse failures to the default as well. -/
def getDevCommand : ManifestRead → String
  | ManifestRead.missing => "dev"
  | ManifestRead.invalidJson => "dev"
  | ManifestRead.parsed os =>
      if truthyStr (os.getD emptyScripts).dev then "dev"
      else if truthyStr (os.getD emptyScripts).start then "start"
      else if truthyStr (os.getD emptyScripts).serve then "serve"
      else "dev"

/- Helper lemmas -/

lemma allowed_self_false (s o : String) (h : isAllowedOrigin s o = true) :
    (o == s) = false := by
  cases hb : (o == s) with
  | false => rfl
  | true => simp [isAllowedOrigin, hb] at h

lemma allowed2_self_false (s o : String) (h : isAllowedOrigin2 s o = true) :
    (o == s) = false := by
  cases hb : (o == s) with
  | false => rfl
  | true => simp [isAllowedOrigin2, hb] at h

lemma lookup_init_none : lookupHandler (some "init") = none := by decide

lemma mt_ping_lookup (t : String) (oid : Option String) (pl : Bool)
    (h : mtIsPing (JsData.obj (some t) oid pl) = true) :
    lookupHandler (some t) = some (JsMember.handler HandlerId.pingUpper) ∨
      lookupHandler (some t) = some (JsMember.handler HandlerId.pingLower) := by
  have h2 : (t == "PING") = true ∨ (t == "ping") = true := by
    simp only [mtIsPing, Bool.and_eq_true, Bool.or_eq_true] at h
    exact h.2
  rcases h2 with h2 | h2
  · have he := eq_of_beq h2
    subst he
    left
    decide
  · have he := eq_of_beq h2
    subst he
    right
    decide

lemma lookup_none_mt (ty oid : Option String) (pl : Bool)
    (hL : lookupHandler ty = none) :
    mtIsPing (JsData.obj ty oid pl) = false := by
  cases ty with
  | none => rfl
  | some t =>
      cases hb : mtIsPing (JsData.obj (some t) oid pl) with
      | false => rfl
      | true =>
          rcases mt_ping_lookup t oid pl hb with h | h <;> rw [h] at hL <;> simp at hL

lemma lookup_nonping_mt (ty oid : Option String) (pl : Bool) (h : HandlerId)
    (hL : lookupHandler ty = some (JsMember.handler h)) (h1 : h ≠ HandlerId.pingUpper)
    (h2 : h ≠ HandlerId.pingLower) :
    mtIsPing (JsData.obj ty oid pl) = false := by
  cases ty with
  | none => rfl
  | some t =>
      cases hb : mtIsPing (JsData.obj (some t) oid pl) with
      | false => rfl
      | true =>
          rcases mt_ping_lookup t oid pl hb with hp | hp <;> rw [hp] at hL
          · exact absurd (JsMember.handler.inj (Option.some.inj hL)).symm h1
          · exact absurd (JsMember.handler.inj (Option.some.inj hL)).symm h2

lemma lookup_proto_mt (ty oid : Option String) (pl : Bool) (nm : String)
    (hL : lookupHandler ty = some (JsMember.protoFn nm)) :
    mtIsPing (JsData.obj ty oid pl) = false := by
  cases ty with
  | none => rfl
  | some t =>
      cases hb : mtIsPing (JsData.obj (some t) oid pl) with
      | false => rfl
      | true =>
          rcases mt_ping_lookup t oid pl hb with hp | hp <;> rw [hp] at hL <;>
            exact JsMember.noConfusion (Option.some.inj hL)

lemma markPing_self (st : ConnSt) (d : JsData) (h : mtIsPing d = false) :
    markPing st d = st := by
  simp [markPing, h]

lemma markPing_shape (st : ConnSt) (d : JsData) :
    markPing st d = st ∨ markPing st d = ⟨true, false⟩ := by
  unfold markPing
  split
  · exact Or.inr rfl
  · exact Or.inl rfl

lemma routeMain_untrusted (s o : String) (st : ConnSt) (d : JsData)
    (h : isAllowedOrigin s o = false) :
    routeMain s st o d = ⟨st, []⟩ := by
  unfold routeMain
  by_cases h1 : (o == s) = true
  · simp [h1]
  · by_cases h2 : (hasSub o "stackblitz" && (jsTypeOf d == some "init")) = true
    · simp [h1, h2]
    · simp [h1, h2, h]

/-- Claim C1, amended (corrected).  Untrusted messages are silently dropped
with no outbound action and no state change on the main routing path; the
out-of-band health-check listener excludes only the page's own origin and
answers a health-check probe from any other origin, trusted or not. -/
theorem untrusted_silent_drop (s o : String) (st : ConnSt) (d : JsData)
    (h : isAllowedOrigin s o = false) :
    routeMain s st o d = ⟨st, []⟩ ∧
    routeHealth s s d = [] ∧
    ((o == s) = false →
      routeHealth s o (JsData.str "health-check") = [Act.sendTo "healthy" o]) := by
  refine ⟨routeMain_untrusted s o st d h, ?_, ?_⟩
  · simp [routeHealth]
  · intro h2
    simp [routeHealth, h2]

/- Witness for untrusted_silent_drop at a concrete untrusted origin. -/
theorem untrusted_silent_drop_wit :
    routeMain "https://sandbox.example" ⟨false, true⟩ "https://evil.example"
      (JsData.obj (some "RUN_COMMAND") none false) = ⟨⟨false, true⟩, []⟩ :=
  (untrusted_silent_drop "https://sandbox.example" "https://evil.example" ⟨false, true⟩
    (JsData.obj (some "RUN_COMMAND") none false) (by decide)).1

/- Counterexample for claim C1 as stated: the health-check path answers an
origin that fails the Origin Guard. -/
theorem health_check_untrusted_reply :
    isAllowedOrigin "https://sandbox.example" "https://evil.example" = false ∧
    routeHealth "https://sandbox.example" "https://evil.example" (JsData.str "health-check") =
      [Act.sendTo "healthy" "https://evil.example"] := by
  constructor
  · decide
  · decide

/-- Claim C2, amended (corrected).  The origin predicate returns false
whenever the candidate equals the self origin, the self check taking
precedence over every other clause; for a candidate different from self it
returns true on the two sentinel origins, and otherwise returns true iff
the candidate contains some configured pattern as a substring. -/
theorem isAllowedOrigin_characterization (S O : String) :
    (O = S → isAllowedOrigin S O = false) ∧
    (O ≠ S → (O = "null" ∨ O = "file://") → isAllowedOrigin S O = true) ∧
    (O ≠ S → O ≠ "null" → O ≠ "file://" →
      (isAllowedOrigin S O = true ↔ (allowedDomains.any fun d => hasSub O d) = true)) := by
  have hb : ∀ a b : String, a ≠ b → (a == b) = false := by
    intro a b hne
    cases hab : (a == b) with
    | false => rfl
    | true => exact absurd (eq_of_beq hab) hne
  refine ⟨?_, ?_, ?_⟩
  · intro h
    subst h
    simp [isAllowedOrigin]
  · intro hne hs
    have h1 := hb O S hne
    rcases hs with h | h <;> subst h <;> unfold isAllowedOrigin <;> rw [h1] <;> decide
  · intro hne h2 h3
    have h1 := hb O S hne
    have hb2 := hb O "null" h2
    have hb3 := hb O "file://" h3
    unfold isAllowedOrigin
    rw [h1, hb2, hb3]
    simp

/- Witness for isAllowedOrigin_characterization on a sentinel origin. -/
theorem isAllowedOrigin_characterization_wit :
    isAllowedOrigin "https://sandbox.example" "null" = true :=
  (isAllowedOrigin_characterization "https://sandbox.example" "null").2.1 (by decide)
    (Or.inl rfl)

/- Counterexample for claim C2 as stated: when the page's own origin is
the sentinel value, a sentinel candidate is rejected, so sentinel
acceptance is not unconditional. -/
theorem sentinel_equals_self_cex :
    (("null" : String) = "null" ∨ ("null" : String) = "file://") ∧
    isAllowedOrigin "null" "null" = false :=
  ⟨Or.inl rfl, by decide⟩

/-- Claim C3, amended (corrected).  Starting a new process into an occupied
slot kills the occupant first: the RUN_COMMAND handler performs its kill as
the very first operation, and a mount request performs the kills of every
occupied slot as a prefix of its trace, before any spawn; no kill happens
after that prefix.  The handlers do not, however, await the killed
occupant's termination before spawning. -/
theorem kill_precedes_spawn (so : Bool) (cs : List String) (ec : Int)
    (c d i hp : Bool) (n : Int) :
    runCommandTrace true so cs ec = POp.killSlot Slot.current :: runCommandTrace false so cs ec ∧
    (∀ s, POp.killSlot s ∉ runCommandTrace false so cs ec) ∧
    mountFilesTrace c d i hp cs n = killAllTrace c d i ++ mountBody hp cs n ∧
    (∀ s, POp.killSlot s ∉ mountBody hp cs n) ∧
    (∀ s, POp.spawn s ∉ killAllTrace c d i) := by
  refine ⟨rfl, ?_, rfl, ?_, ?_⟩
  · intro s hmem
    cases so <;> simp [runCommandTrace, List.mem_append, List.mem_map] at hmem
  · intro s hmem
    by_cases hn : (n != 0) = true <;>
      cases hp <;>
        simp [mountBody, hn, List.mem_append, List.mem_map] at hmem
  · intro s hmem
    cases c <;> cases d <;> cases i <;> simp [killAllTrace] at hmem

/- Counterexample for claim C3 as stated: the RUN_COMMAND handler kills the
occupant and immediately spawns the replacement without awaiting the
occupant's exit. -/
theorem kill_not_awaited_cex :
    runCommandTrace true true [] 0 =
      [POp.killSlot Slot.current, POp.spawn Slot.current, POp.awaitExit Slot.current,
       POp.clearSlot Slot.current, POp.emit "COMMAND_EXIT" (some 0)] ∧
    killAwaitedBeforeSpawnB (runCommandTrace true true [] 0) = false := by
  constructor
  · decide
  · decide

/-- Claim C5 (confirmed).  When the install process of a mount session
exits with a non-zero code, the handler throws, the catch surfaces an
error event carrying that exit code, and no process is ever spawned into
the serve slot for that session. -/
theorem install_failure_no_serve (c d i : Bool) (cs : List String) (n : Int)
    (hn : n ≠ 0) :
    POp.emit "ERROR" (some n) ∈ mountFilesTrace c d i true cs n ∧
    POp.spawn Slot.devServer ∉ mountFilesTrace c d i true cs n ∧
    POp.pipe Slot.devServer ∉ mountFilesTrace c d i true cs n := by
  have hb : (n != 0) = true := by simpa using hn
  refine ⟨?_, ?_, ?_⟩
  · simp [mountFilesTrace, mountBody, hb, List.mem_append]
  · intro hmem
    simp only [mountFilesTrace, List.mem_append] at hmem
    rcases hmem with hmem | hmem
    · cases c <;> cases d <;> cases i <;> simp [killAllTrace] at hmem
    · simp [mountBody, hb, List.mem_append, List.mem_map] at hmem
  · intro hmem
    simp only [mountFilesTrace, List.mem_append] at hmem
    rcases hmem with hmem | hmem
    · cases c <;> cases d <;> cases i <;> simp [killAllTrace] at hmem
    · simp [mountBody, hb, List.mem_append, List.mem_map] at hmem

/- Witness for install_failure_no_serve at exit code 1. -/
theorem install_failure_no_serve_wit :
    POp.emit "ERROR" (some 1) ∈ mountFilesTrace false false false true [] 1 :=
  (install_failure_no_serve false false false [] 1 (by decide)).1

lemma filter_const_out (p : POp → Bool)
    (hp : p (POp.emit "COMMAND_OUTPUT" none) = false) (cs : List String) :
    (cs.map fun _ => POp.emit "COMMAND_OUTPUT" none).filter p = [] := by
  induction cs with
  | nil => rfl
  | cons a t ih => simp [List.filter_cons, hp, ih]

/-- Claim C9, amended (corrected).  The exit of the run-command slot's
process is reported as exactly one COMMAND_EXIT event carrying the numeric
exit code, and a non-zero exit code there is never raised as a local
fault: whenever the spawn succeeds, the handler's trace contains exactly
one exit event, it carries the code, and contains no error event at all,
for every exit code. -/
theorem runCommand_exit_reported (occ : Bool) (cs : List String) (ec : Int) :
    (runCommandTrace occ true cs ec).filter isExitEv =
      [POp.emit "COMMAND_EXIT" (some ec)] ∧
    (runCommandTrace occ true cs ec).filter isErrEv = [] := by
  have h1 : isExitEv (POp.emit "COMMAND_EXIT" (some ec)) = true := rfl
  have h2 : isErrEv (POp.emit "COMMAND_EXIT" (some ec)) = false := rfl
  constructor <;>
    cases occ <;>
      simp [runCommandTrace, List.filter_append, List.filter_cons, isExitEv, isErrEv,
        h1, h2, filter_const_out isExitEv rfl cs, filter_const_out isErrEv rfl cs]

/- Counterexample for claim C9 as stated: a successful mount session spawns
the install and serve processes, yet its trace contains no exit event and
no outbound event carrying any exit code (the install exit becomes a bare
status update, the serve exit is never awaited). -/
theorem install_exit_unreported_cex :
    POp.spawn Slot.install ∈ mountFilesTrace false false false true [] 0 ∧
    POp.spawn Slot.devServer ∈ mountFilesTrace false false false true [] 0 ∧
    (mountFilesTrace false false false true [] 0).filter isExitEv = [] ∧
    (mountFilesTrace false false false true [] 0).filter withCode = [] := by
  refine ⟨?_, ?_, ?_, ?_⟩
  · simp [mountFilesTrace, killAllTrace, mountBody]
  · simp [mountFilesTrace, killAllTrace, mountBody]
  · decide
  · decide

/-- Claim C6 (confirmed).  The serve-command selection is a pure function
of the manifest's declared scripts: a truthy dev entry wins, else start,
else serve, else the default name dev; and being a function, the same
manifest always yields the same command. -/
theorem getDevCommand_preference (s : Scripts) :
    (truthyStr s.dev = true → getDevCommand (ManifestRead.parsed (some s)) = "dev") ∧
    (truthyStr s.dev = false → truthyStr s.start = true →
      getDevCommand (ManifestRead.parsed (some s)) = "start") ∧
    (truthyStr s.dev = false → truthyStr s.start = false → truthyStr s.serve = true →
      getDevCommand (ManifestRead.parsed (some s)) = "serve") ∧
    (truthyStr s.dev = false → truthyStr s.start = false → truthyStr s.serve = false →
      getDevCommand (ManifestRead.parsed (some s)) = "dev") ∧
    (∀ m1 m2 : ManifestRead, m1 = m2 → getDevCommand m1 = getDevCommand m2) := by
  refine ⟨?_, ?_, ?_, ?_, ?_⟩
  · intro h1
    simp [getDevCommand, h1]
  · intro h1 h2
    simp [getDevCommand, h1, h2]
  · intro h1 h2 h3
    simp [getDevCommand, h1, h2, h3]
  · intro h1 h2 h3
    simp [getDevCommand, h1, h2, h3]
  · intro m1 m2 h
    rw [h]

/- Witness for getDevCommand_preference: a manifest with only a start
script selects start. -/
theorem getDevCommand_preference_wit :
    getDevCommand (ManifestRead.parsed (some ⟨none, some "node server.js", none⟩)) = "start" :=
  (getDevCommand_preference ⟨none, some "node server.js", none⟩).2.1 (by decide) (by decide)

/-- Claim C10 (confirmed).  The manifest inspection functions are total at
the public interface: the read and parse failure paths are caught, so
hasPackageJson answers false when the manifest is absent or unreadable,
and getDevCommand answers the default dev when the manifest is missing,
unreadable, not valid JSON, or lacks a scripts field; both are total Lean
functions over every read outcome. -/
theorem manifest_probe_totality :
    hasPackageJson ManifestRead.missing = false ∧
    getDevCommand ManifestRead.missing = "dev" ∧
    getDevCommand ManifestRead.invalidJson = "dev" ∧
    getDevCommand (ManifestRead.parsed none) = "dev" := by
  refine ⟨rfl, rfl, rfl, rfl⟩

/-- Claim C4, amended (corrected).  For every trusted object-typed liveness
probe whose kind is exactly PING or ping, the revision-2 bridge listener
transitions to Connected, cancels the handshake timer, and emits exactly
one liveness response directed at the sender; when the probe carried a
non-empty correlation id the response carries that same id, and when it
carried none the response carries none.  Bare-string probes are not
answered by this listener. -/
theorem ping_probe_connects (s o : String) (st : ConnSt) (ty oid : Option String)
    (pl : Bool) (hT : isAllowedOrigin2 s o = true)
    (hP : ty = some "PING" ∨ ty = some "ping") :
    (route2 s st o (JsData.obj ty oid pl)).st = ⟨true, false⟩ ∧
    (route2 s st o (JsData.obj ty oid pl)).acts.length = 1 ∧
    (∀ v, oid = some v → v ≠ "" →
      (route2 s st o (JsData.obj ty oid pl)).acts = [Act2.sendTo "PONG" o (some v)]) ∧
    (oid = none →
      (route2 s st o (JsData.obj ty oid pl)).acts = [Act2.sendTo "PONG" o none]) := by
  have h1 := allowed2_self_false s o hT
  have hmain : route2 s st o (JsData.obj ty oid pl) =
      ⟨⟨true, false⟩,
       [Act2.sendTo "PONG" o (if idTruthy oid then oid else none)]⟩ := by
    unfold route2
    rcases hP with h | h <;> subst h <;> simp [h1, hT, jsTypeOf, jsIdOf]
  refine ⟨?_, ?_, ?_, ?_⟩
  · rw [hmain]
  · rw [hmain]
    rfl
  · intro v hv hvne
    subst hv
    rw [hmain]
    have hid : idTruthy (some v) = true := by simpa [idTruthy] using hvne
    rw [hid]
    rfl
  · intro hv
    subst hv
    rw [hmain]
    rfl

/- Witness for ping_probe_connects: a PING probe with id abc123 receives
one PONG carrying abc123. -/
theorem ping_probe_connects_wit :
    (route2 "https://sandbox.example" ⟨false, true⟩ "http://localhost:3000"
      (JsData.obj (some "PING") (some "abc123") false)).acts =
      [Act2.sendTo "PONG" "http://localhost:3000" (some "abc123")] :=
  (ping_probe_connects "https://sandbox.example" "http://localhost:3000" ⟨false, true⟩
    (some "PING") (some "abc123") false (by decide) (Or.inl rfl)).2.2.1 "abc123" rfl
    (by decide)

/- Counterexample for claim C4 as stated: a trusted bare-string liveness
probe is dropped by the revision-2 listener with no response and no state
transition. -/
theorem bare_ping_dropped_cex :
    isAllowedOrigin2 "https://sandbox.example" "http://localhost:3000" = true ∧
    route2 "https://sandbox.example" ⟨false, true⟩ "http://localhost:3000"
      (JsData.str "ping") = ⟨⟨false, true⟩, []⟩ := by
  constructor
  · decide
  · decide

lemma beq_false_of_ne {α : Type} [BEq α] [LawfulBEq α] (a b : α) (h : a ≠ b) :
    (a == b) = false := by
  cases hab : (a == b) with
  | false => rfl
  | true => exact absurd (eq_of_beq hab) h

/-- Claim C7, amended (corrected).  For trusted object messages, the router
reads the handler table at the kind and then at the lower-cased kind, both
reads going through the prototype chain; the liveness probe is hence
matched case-insensitively, every other vocabulary kind only by its exact
uppercase spelling, and a recognized kind dispatches to exactly one
handler.  A kind matching neither a table entry nor an inherited
Object-prototype member name is a silent no-op: no handler runs, no
outbound message is produced, the state is unchanged and no fault is
raised.  A kind naming an inherited prototype member is not a silent
no-op: the truthy inherited value is invoked, and whenever that invocation
throws (every member except the Object constructor and toString, with
isPrototypeOf throwing exactly when the payload is an Object), the
listener's catch emits one outbound ERROR event (HANDLER_ERROR) to the
peer. -/
theorem router_exact_dispatch (s o : String) (st : ConnSt) (ty oid : Option String)
    (pl : Bool) (hT : isAllowedOrigin s o = true) :
    (lookupHandler ty = none → routeMain s st o (JsData.obj ty oid pl) = ⟨st, []⟩) ∧
    (lookupHandler ty = some (JsMember.handler HandlerId.pingUpper) →
      (routeMain s st o (JsData.obj ty oid pl)).acts = [Act.send "PONG"]) ∧
    (lookupHandler ty = some (JsMember.handler HandlerId.pingLower) →
      (routeMain s st o (JsData.obj ty oid pl)).acts = [Act.send "pong"]) ∧
    (∀ h, lookupHandler ty = some (JsMember.handler h) → h ≠ HandlerId.pingUpper →
      h ≠ HandlerId.pingLower →
      routeMain s st o (JsData.obj ty oid pl) = ⟨st, [Act.invoke h]⟩) ∧
    (∀ nm, lookupHandler ty = some (JsMember.protoFn nm) →
      (protoThrows nm pl = true →
        routeMain s st o (JsData.obj ty oid pl) =
          ⟨st, [Act.invokeProto nm, Act.send "ERROR"]⟩) ∧
      (protoThrows nm pl = false →
        routeMain s st o (JsData.obj ty oid pl) = ⟨st, [Act.invokeProto nm]⟩)) := by
  have h1 := allowed_self_false s o hT
  have hinit : ∀ m : JsMember, lookupHandler ty = some m → (ty == some "init") = false := by
    intro m hL
    apply beq_false_of_ne
    intro he
    rw [he, lookup_init_none] at hL
    exact Option.noConfusion hL
  refine ⟨?_, ?_, ?_, ?_, ?_⟩
  · intro hL
    have hmt := lookup_none_mt ty oid pl hL
    unfold routeMain
    by_cases h2 :
        (hasSub o "stackblitz" && (jsTypeOf (JsData.obj ty oid pl) == some "init")) = true
    · simp [h1, h2]
    · simp [h1, h2, hT, hL, markPing_self st _ hmt]
  · intro hL
    have h2 := hinit _ hL
    unfold routeMain
    simp [h1, jsTypeOf, h2, hT, hL]
  · intro hL
    have h2 := hinit _ hL
    unfold routeMain
    simp [h1, jsTypeOf, h2, hT, hL]
  · intro h hL hn1 hn2
    have h2 := hinit _ hL
    have hmt := lookup_nonping_mt ty oid pl h hL hn1 hn2
    unfold routeMain
    cases h with
    | pingUpper => exact absurd rfl hn1
    | pingLower => exact absurd rfl hn2
    | mountFiles => simp [h1, jsTypeOf, h2, hT, hL, markPing_self st _ hmt]
    | runCommand => simp [h1, jsTypeOf, h2, hT, hL, markPing_self st _ hmt]
    | writeFile => simp [h1, jsTypeOf, h2, hT, hL, markPing_self st _ hmt]
    | readFile => simp [h1, jsTypeOf, h2, hT, hL, markPing_self st _ hmt]
  · intro nm hL
    have h2 := hinit _ hL
    have hmt := lookup_proto_mt ty oid pl nm hL
    constructor
    · intro hth
      unfold routeMain
      simp [h1, jsTypeOf, h2, hT, hL, hth, markPing_self st _ hmt]
    · intro hth
      unfold routeMain
      simp [h1, jsTypeOf, h2, hT, hL, hth, markPing_self st _ hmt]

/- Witness for router_exact_dispatch: a trusted message whose kind is the
inherited member hasOwnProperty reaches the inherited value through the
prototype chain; its invocation throws and one outbound ERROR is sent. -/
theorem router_exact_dispatch_wit :
    routeMain "https://sandbox.example" ⟨false, true⟩ "http://localhost:3000"
      (JsData.obj (some "hasOwnProperty") none false) =
      ⟨⟨false, true⟩, [Act.invokeProto "hasOwnProperty", Act.send "ERROR"]⟩ :=
  ((router_exact_dispatch "https://sandbox.example" "http://localhost:3000" ⟨false, true⟩
    (some "hasOwnProperty") none false (by decide)).2.2.2.2 "hasOwnProperty"
    (by decide)).1 (by decide)

/- Counterexample for claim C7 as stated: the kind mount_files is a case
variant of the vocabulary entry MOUNT_FILES, the origin is trusted, yet
the message is dropped without dispatching any handler, so matching is not
case-insensitive; and the kind valueOf is outside the vocabulary yet
produces an outbound ERROR, so unrecognized kinds are not all silent. -/
theorem lowercase_kind_not_dispatched_cex :
    asciiLower "mount_files" = asciiLower "MOUNT_FILES" ∧
    isAllowedOrigin "https://sandbox.example" "http://localhost:3000" = true ∧
    lookupHandler (some "mount_files") = none ∧
    routeMain "https://sandbox.example" ⟨true, false⟩ "http://localhost:3000"
      (JsData.obj (some "mount_files") none false) = ⟨⟨true, false⟩, []⟩ ∧
    routeMain "https://sandbox.example" ⟨true, false⟩ "http://localhost:3000"
      (JsData.obj (some "valueOf") none false) =
      ⟨⟨true, false⟩, [Act.invokeProto "valueOf", Act.send "ERROR"]⟩ := by
  refine ⟨?_, ?_, ?_, ?_, ?_⟩ <;> decide

lemma heartbeat_connected (st : ConnSt) (hc : st.connected = true) :
    heartbeatTick st = (st, []) := by
  cases hta : st.timerActive <;> simp [heartbeatTick, hc, hta]

lemma routeHealth_shape (s o : String) (d : JsData) :
    routeHealth s o d = [] ∨ routeHealth s o d = [Act.sendTo "healthy" o] := by
  unfold routeHealth
  split
  · exact Or.inl rfl
  · split
    · exact Or.inr rfl
    · exact Or.inl rfl

lemma routeMain_shape (s o : String) (st : ConnSt) (d : JsData) :
    ((routeMain s st o d).st = st ∨ (routeMain s st o d).st = ⟨true, false⟩) ∧
    (∀ a ∈ (routeMain s st o d).acts,
      a = Act.send "PONG" ∨ a = Act.send "pong" ∨ a = Act.send "ERROR" ∨
        (∃ h, a = Act.invoke h) ∨ ∃ nm, a = Act.invokeProto nm) := by
  unfold routeMain
  by_cases h1 : (o == s) = true
  · simp [h1]
  · by_cases h2 : (hasSub o "stackblitz" && (jsTypeOf d == some "init")) = true
    · simp [h1, h2]
    · by_cases h3 : (!(isAllowedOrigin s o)) = true
      · simp [h1, h2, h3]
      · cases d with
        | str v =>
            by_cases h4 : (asciiLower v == "ping") = true
            · simp [h1, h2, h3, h4]
            · simp [h1, h2, h3, h4, markPing_shape st (JsData.str v)]
        | obj ty oid p =>
            cases hL : lookupHandler ty with
            | none =>
                simp [h1, h2, h3, hL, markPing_shape st (JsData.obj ty oid p)]
            | some m =>
                cases m with
                | handler h =>
                    cases h <;>
                      simp [h1, h2, h3, hL, markPing_shape st (JsData.obj ty oid p)]
                | protoFn nm =>
                    by_cases h5 : protoThrows nm p = true <;>
                      simp [h1, h2, h3, hL, h5,
                        markPing_shape st (JsData.obj ty oid p)]

lemma ping_always_pong (s o : String) (st : ConnSt) (oid : Option String) (pl : Bool)
    (hT : isAllowedOrigin s o = true) :
    routeMain s st o (JsData.obj (some "PING") oid pl) =
      ⟨⟨true, false⟩, [Act.send "PONG"]⟩ := by
  have h1 := allowed_self_false s o hT
  have h2 : ((some "PING" : Option String) == some "init") = false := by decide
  have hL : lookupHandler (some "PING") = some (JsMember.handler HandlerId.pingUpper) := by
    decide
  unfold routeMain
  simp [h1, jsTypeOf, h2, hT, hL]

lemma runEvs_inv (s : String) (evs : List BridgeEv) :
    ∀ st : ConnSt, st.connected = true → st.timerActive = false →
      (runEvs s st evs).1.connected = true ∧ (runEvs s st evs).1.timerActive = false ∧
      ∀ a ∈ (runEvs s st evs).2,
        a = Act.send "PONG" ∨ a = Act.send "pong" ∨ a = Act.send "ERROR" ∨
          (∃ h, a = Act.invoke h) ∨ (∃ nm, a = Act.invokeProto nm) ∨
          ∃ o, a = Act.sendTo "healthy" o := by
  induction evs with
  | nil =>
      intro st hc ht
      refine ⟨hc, ht, ?_⟩
      intro a ha
      simp [runEvs] at ha
  | cons e es ih =>
      intro st hc ht
      cases e with
      | tick =>
          have hrw : stepEv s st BridgeEv.tick = (st, []) := by
            simp [stepEv, heartbeat_connected st hc]
          obtain ⟨A, B, C⟩ := ih st hc ht
          refine ⟨?_, ?_, ?_⟩
          · simpa [runEvs, hrw] using A
          · simpa [runEvs, hrw] using B
          · intro a ha
            simp only [runEvs, hrw, List.nil_append] at ha
            exact C a ha
      | msg o d =>
          obtain ⟨hstS, hactsS⟩ := routeMain_shape s o st d
          have hc2 : (routeMain s st o d).st.connected = true := by
            rcases hstS with h | h
            · rw [h]
              exact hc
            · rw [h]
          have ht2 : (routeMain s st o d).st.timerActive = false := by
            rcases hstS with h | h
            · rw [h]
              exact ht
            · rw [h]
          obtain ⟨A, B, C⟩ := ih (routeMain s st o d).st hc2 ht2
          refine ⟨?_, ?_, ?_⟩
          · simpa [runEvs, stepEv] using A
          · simpa [runEvs, stepEv] using B
          · intro a ha
            simp only [runEvs, stepEv, List.mem_append] at ha
            rcases ha with ha | ha
            · rcases hactsS a ha with h | h | h | ⟨hh, h⟩ | ⟨nm, h⟩
              · exact Or.inl h
              · exact Or.inr (Or.inl h)
              · exact Or.inr (Or.inr (Or.inl h))
              · exact Or.inr (Or.inr (Or.inr (Or.inl ⟨hh, h⟩)))
              · exact Or.inr (Or.inr (Or.inr (Or.inr (Or.inl ⟨nm, h⟩))))
            · exact C a ha
      | health o d =>
          obtain ⟨A, B, C⟩ := ih st hc ht
          refine ⟨?_, ?_, ?_⟩
          · simpa [runEvs, stepEv] using A
          · simpa [runEvs, stepEv] using B
          · intro a ha
            simp only [runEvs, stepEv, List.mem_append] at ha
            rcases ha with ha | ha
            · rcases routeHealth_shape s o d with h | h <;> rw [h] at ha <;> simp at ha
              exact Or.inr (Or.inr (Or.inr (Or.inr (Or.inr ⟨o, ha⟩))))
            · exact C a ha

/-- Claim C8 (confirmed).  Once the page is connected with the handshake
timer cancelled, running any sequence of subsequent events keeps it
connected with the timer cancelled, and no ready broadcast of any encoding
is ever emitted again; a trusted liveness probe arriving at any such later
state is still answered with exactly one liveness response; and cancelling
the already-cancelled timer leaves the state unchanged. -/
theorem connected_state_stable (s o : String) (st : ConnSt) (evs : List BridgeEv)
    (oid : Option String) (pl : Bool) (hc : st.connected = true)
    (ht : st.timerActive = false) :
    (runEvs s st evs).1.connected = true ∧
    (runEvs s st evs).1.timerActive = false ∧
    Act.send "ready" ∉ (runEvs s st evs).2 ∧
    Act.send "READY" ∉ (runEvs s st evs).2 ∧
    Act.send "WEBCONTAINER_READY" ∉ (runEvs s st evs).2 ∧
    (isAllowedOrigin s o = true →
      (routeMain s (runEvs s st evs).1 o (JsData.obj (some "PING") oid pl)).acts =
        [Act.send "PONG"]) ∧
    clearTimer st = st := by
  obtain ⟨A, B, C⟩ := runEvs_inv s evs st hc ht
  have noReady : ∀ t : String, t ≠ "PONG" → t ≠ "pong" → t ≠ "ERROR" →
      Act.send t ∉ (runEvs s st evs).2 := by
    intro t hne1 hne2 hne3 hmem
    rcases C _ hmem with h | h | h | ⟨hh, h⟩ | ⟨nm, h⟩ | ⟨o2, h⟩
    · exact hne1 (Act.send.inj h)
    · exact hne2 (Act.send.inj h)
    · exact hne3 (Act.send.inj h)
    · exact Act.noConfusion h
    · exact Act.noConfusion h
    · exact Act.noConfusion h
  refine ⟨A, B, ?_, ?_, ?_, ?_, ?_⟩
  · exact noReady "ready" (by decide) (by decide) (by decide)
  · exact noReady "READY" (by decide) (by decide) (by decide)
  · exact noReady "WEBCONTAINER_READY" (by decide) (by decide) (by decide)
  · intro hT
    rw [ping_always_pong s o ((runEvs s st evs).1) oid pl hT]
  · cases st with
    | mk cf tf =>
        simp [clearTimer] at ht ⊢
        exact ht

/- Witness for connected_state_stable: after a tick and an untrusted
health probe in the connected state, the state is unchanged and a trusted
PING is still answered. -/
theorem connected_state_stable_wit :
    (routeMain "https://sandbox.example"
      (runEvs "https://sandbox.example" ⟨true, false⟩
        [BridgeEv.tick, BridgeEv.health "https://evil.example" (JsData.str "health-check")]).1
      "http://localhost:3000" (JsData.obj (some "PING") none false)).acts =
      [Act.send "PONG"] :=
  (connected_state_stable "https://sandbox.example" "http://localhost:3000" ⟨true, false⟩
    [BridgeEv.tick, BridgeEv.health "https://evil.example" (JsData.str "health-check")]
    none false rfl rfl).2.2.2.2.2.1 (by decide)

end Webhost
